import Mathlib

/-!
Shallow embedding of the voxel-sandbox core of the MineCraft web repository:
the sparse block store and its mutation API (src/store/useStore.ts, given as
src/unnamed/part_001), the spatial key codec, the terrain generator, and the
grid AABB collision resolver with the sub-stepped movement integration of
src/src/components/Player.tsx.

Modelling conventions:
* JS numbers that carry continuous quantities (positions, velocities, times)
  are embedded as exact rationals; integer grid coordinates as ℤ.
* The string-keyed plain-object block record is embedded as an association
  list keyed by the integer coordinate triple, with JS property assignment
  as head insertion (later bindings shadow earlier ones) and property
  deletion as full removal of the key.  The key codec posKey is proved to be
  a split injection below (claim C5), so the string keys and the triples are
  in bijection on every key the program ever builds.
* The JS strings handled by the codec are embedded as lists of characters.
* The height formula of the terrain generator combines Math.sin/Math.cos on
  binary doubles; the generator is therefore parametrised by the height
  function h.  The source formula satisfies h x z ≤ 5 (a sum of sinusoids of
  amplitudes 2, 2 and 1.5, floored), which the terrain theorem takes as the
  hypothesis (weakened to h x z ≤ 10, the tree scan start height).
* The two unbounded loops of the player controller (the sub-step while loop
  and the defensive upward-snap loop) are embedded with explicit fuel; the
  fuel is shown to suffice (subLoop_fuel_stable, snapUp_noCollide), so the
  embedding computes the completed integration, not a truncation.
-/

/-- Block types of the game, from src/types/index.ts. -/
inductive BlockType
  | grass
  | dirt
  | stone
  | wood
  | glass
deriving DecidableEq

/-- Integer grid coordinate triple. -/
abbrev Pos3 : Type := ℤ × ℤ × ℤ

/-- The sparse block store: the JS object keyed by "x,y,z", embedded as an
association list keyed by the coordinate triple (first binding wins). -/
abbrev Blocks : Type := List (Pos3 × BlockType)

/-- Property lookup on the block record: first binding for the key. -/
def getBlock : Blocks → Pos3 → Option BlockType
  | [], _ => none
  | e :: r, p => if e.1 = p then some e.2 else getBlock r p

/-- Property assignment on the block record: the new binding shadows. -/
def setBlock (bs : Blocks) (p : Pos3) (t : BlockType) : Blocks :=
  (p, t) :: bs

/-- Property deletion on the block record. -/
def delBlock : Blocks → Pos3 → Blocks
  | [], _ => []
  | e :: r, p => if e.1 = p then delBlock r p else e :: delBlock r p

/-- The test blocks[key] !== undefined. -/
def occupied (bs : Blocks) (p : Pos3) : Bool :=
  (getBlock bs p).isSome

/-- Ascending list of n integers starting at a. -/
def intRangeAux (a : ℤ) : ℕ → List ℤ
  | 0 => []
  | n + 1 => a :: intRangeAux (a + 1) n

/-- Ascending list of the integers from a to b inclusive (a JS for loop
from a to b). -/
def intRange (a b : ℤ) : List ℤ :=
  intRangeAux a (b + 1 - a).toNat

/-! ## Spatial key codec (posKey / keyToPos of the store module) -/

/-- Decimal digit character for a digit value. -/
def digitChar (d : ℕ) : Char := Char.ofNat (48 + d)

/-- Decimal digits of a natural number, least significant first; empty
for zero. -/
def natDigits (n : ℕ) : List ℕ :=
  if h : n = 0 then [] else n % 10 :: natDigits (n / 10)
decreasing_by exact Nat.div_lt_self (Nat.pos_of_ne_zero h) (by norm_num)

/-- Decimal string of a natural number, as the JS template literal
renders it. -/
def natChars (n : ℕ) : List Char :=
  if n = 0 then ['0'] else ((natDigits n).map digitChar).reverse

/-- Decimal string of an integer, as the JS template literal renders it. -/
def intChars (x : ℤ) : List Char :=
  if x < 0 then '-' :: natChars x.natAbs else natChars x.natAbs

/-- Spatial key encoder: posKey(x, y, z) builds the string "x,y,z". -/
def posKey (x y z : ℤ) : List Char :=
  intChars x ++ ',' :: (intChars y ++ ',' :: intChars z)

/-- Split on ',' exactly as JS String.prototype.split(',') does, including
the empty-string parts. -/
def splitComma : List Char → List (List Char)
  | [] => [[]]
  | c :: r =>
    if c = ',' then [] :: splitComma r
    else
      match splitComma r with
      | [] => [[c]]
      | h :: t => (c :: h) :: t

/-- Numeric value of a decimal digit character, none otherwise. -/
def digitVal (c : Char) : Option ℕ :=
  if 48 ≤ c.toNat ∧ c.toNat ≤ 57 then some (c.toNat - 48) else none

/-- Accumulating decimal parse of a digit run; none on the first
non-digit. -/
def parseNatAux : ℕ → List Char → Option ℕ
  | acc, [] => some acc
  | acc, c :: r =>
    match digitVal c with
    | some d => parseNatAux (10 * acc + d) r
    | none => none

/-- Model of the JS Number() conversion on the sublanguage this program
feeds it: the empty string converts to 0, an optional leading minus sign
followed by a nonempty run of decimal digits converts to the signed value,
and every other string converts to NaN, embedded as none.  (Number() also
accepts fractional, exponent, hexadecimal and whitespace forms; no key this
development evaluates uses them.) -/
def jsNumber : List Char → Option ℤ
  | [] => some 0
  | c :: r =>
    if c = '-' then
      if r = [] then none else (parseNatAux 0 r).map (fun n => -(n : ℤ))
    else (parseNatAux 0 (c :: r)).map (fun n => (n : ℤ))

/-- Number(parts[i]) where parts[i] may be undefined: Number(undefined)
is NaN. -/
def jsNumberOpt : Option (List Char) → Option ℤ
  | none => none
  | some s => jsNumber s

/-- Spatial key decoder: keyToPos splits the key on ',' and converts the
first three parts with Number().  NaN components are embedded as none. -/
def keyToPos (k : List Char) : Option ℤ × Option ℤ × Option ℤ :=
  (jsNumberOpt ((splitComma k).get? 0),
   jsNumberOpt ((splitComma k).get? 1),
   jsNumberOpt ((splitComma k).get? 2))

/-! ## World store (Zustand store of src/store/useStore.ts) -/

/-- Player-position overlap check guarding block placement
(overlapsPlayer of the store module): a vertical band of ±0.9 around the
stored player y and a horizontal band of 0.8 around the stored player x
and z. -/
def overlapsPlayer (bx b2 bz : ℤ) (pp : ℚ × ℚ × ℚ) : Bool :=
  if (b2 : ℚ) + 1/2 ≤ pp.2.1 - 9/10 ∨ (b2 : ℚ) - 1/2 ≥ pp.2.1 + 9/10 then false
  else decide (|(bx : ℚ) - pp.1| < 8/10 ∧ |(bz : ℚ) - pp.2.2| < 8/10)

/-- State of the Zustand store. -/
structure StoreState where
  blocks : Blocks
  blockVersion : ℕ
  activeBlockType : BlockType
  playerPosition : ℚ × ℚ × ℚ
deriving DecidableEq

/-- addBlock action: rejects an occupied target, then a target overlapping
the player; otherwise inserts the active block type and bumps the version.
The returned flag records whether the store mutated (the spec surface
add(pos, type) -> bool). -/
def addBlock (s : StoreState) (p : Pos3) : StoreState × Bool :=
  if (getBlock s.blocks p).isSome then (s, false)
  else if overlapsPlayer p.1 p.2.1 p.2.2 s.playerPosition then (s, false)
  else
    ({ s with
        blocks := setBlock s.blocks p s.activeBlockType,
        blockVersion := s.blockVersion + 1 }, true)

/-- removeBlock action: rejects an empty target; otherwise deletes the
binding and bumps the version. -/
def removeBlock (s : StoreState) (p : Pos3) : StoreState × Bool :=
  if getBlock s.blocks p = none then (s, false)
  else
    ({ s with
        blocks := delBlock s.blocks p,
        blockVersion := s.blockVersion + 1 }, true)

/-- setActiveBlockType action. -/
def setActiveBlockType (s : StoreState) (t : BlockType) : StoreState :=
  { s with activeBlockType := t }

/-- setPlayerPosition action: stores the new position only when the squared
displacement from the stored one exceeds 0.25. -/
def setPlayerPosition (s : StoreState) (pos : ℚ × ℚ × ℚ) : StoreState :=
  if (pos.1 - s.playerPosition.1) * (pos.1 - s.playerPosition.1) +
      (pos.2.1 - s.playerPosition.2.1) * (pos.2.1 - s.playerPosition.2.1) +
      (pos.2.2 - s.playerPosition.2.2) * (pos.2.2 - s.playerPosition.2.2) > 1/4
  then { s with playerPosition := pos } else s

/-! ## Terrain generator (generateTerrain of the store module) -/

/-- Layer type of a terrain cell at height y in a column of height hxz. -/
def layerType (hxz y : ℤ) : BlockType :=
  if y = hxz then BlockType.grass
  else if hxz - 2 ≤ y then BlockType.dirt
  else BlockType.stone

/-- Fill one terrain column: every y from the floor -3 up to h x z. -/
def colFill (h : ℤ → ℤ → ℤ) (x z : ℤ) (bs : Blocks) : Blocks :=
  (intRange (-3) (h x z)).foldl
    (fun acc y => setBlock acc (x, y, z) (layerType (h x z) y)) bs

/-- Fill one x-slice of the footprint: all z from -16 to 16. -/
def planeFill (h : ℤ → ℤ → ℤ) (x : ℤ) (bs : Blocks) : Blocks :=
  (intRange (-16) 16).foldl (fun acc z => colFill h x z acc) bs

/-- Fill the whole footprint: all x from -16 to 16. -/
def groundFill (h : ℤ → ℤ → ℤ) : Blocks :=
  (intRange (-16) 16).foldl (fun acc x => planeFill h x acc) []

/-- Tree anchor columns (x, z), from the trees list of generateTerrain. -/
def treeCols : List (ℤ × ℤ) :=
  [(3, 4), (-5, -7), (10, -3), (-8, 12), (6, -10)]

/-- Ground scan of the tree planter: walk y from 10 down to -3 and stop at
the first occupied cell; 10 when none is found. -/
def findGround (bs : Blocks) (tx tz : ℤ) : ℤ :=
  (((intRange (-3) 10).reverse).find? (fun y => occupied bs (tx, y, tz))).getD 10

/-- Plant one tree: stack four wood cells directly above the ground. -/
def plantTree (bs : Blocks) (tx tz : ℤ) : Blocks :=
  (intRange 1 4).foldl
    (fun acc dy => setBlock acc (tx, findGround bs tx tz + dy, tz) BlockType.wood) bs

/-- Terrain generator: heightmap fill of the centered square footprint,
then the five trees.  The height function h stands for the source's
Math.floor(Math.sin(x*0.15)*2 + Math.cos(z*0.15)*2 + Math.sin((x+z)*0.1)*1.5). -/
def generateTerrain (h : ℤ → ℤ → ℤ) : Blocks :=
  treeCols.foldl (fun b t => plantTree b t.1 t.2) (groundFill h)

/-! ## Collision resolver and player kinematics (src/components/Player.tsx) -/

/-- Tuning constants of the player controller. -/
def JUMP_VEL : ℚ := 8

/-- Gravity acceleration. -/
def GRAVITY : ℚ := -25

/-- Player AABB height above the feet. -/
def PLAYER_H : ℚ := 17/10

/-- Half of the player AABB footprint width. -/
def HALF : ℚ := 3/10

/-- Feet elevation below which the player respawns. -/
def RESPAWN_Y : ℚ := -20

/-- Nominal sub-step duration. -/
def SUB_DT : ℚ := 1/60

/-- Grid AABB collision query (collides of Player.tsx): iterate the
epsilon-derived candidate coordinate ranges and exact-test each occupied
cell. -/
def collides (minX minY minZ maxX maxY maxZ : ℚ) (bs : Blocks) : Bool :=
  (intRange ⌈minX - 1/2 + 1/1000⌉ ⌊maxX + 1/2 - 1/1000⌋).any fun bx =>
    (intRange ⌈minY - 1/2 + 1/1000⌉ ⌊maxY + 1/2 - 1/1000⌋).any fun b2 =>
      (intRange ⌈minZ - 1/2 + 1/1000⌉ ⌊maxZ + 1/2 - 1/1000⌋).any fun bz =>
        occupied bs (bx, b2, bz) &&
        decide ((bx : ℚ) - 1/2 < maxX) && decide (minX < (bx : ℚ) + 1/2) &&
        decide ((b2 : ℚ) - 1/2 < maxY) && decide (minY < (b2 : ℚ) + 1/2) &&
        decide ((bz : ℚ) - 1/2 < maxZ) && decide (minZ < (bz : ℚ) + 1/2)

/-- Mutable per-frame state of the player controller: feet position, the
frame's velocity components, and the grounded flag. -/
structure FState where
  px : ℚ
  py : ℚ
  pz : ℚ
  vx : ℚ
  vy : ℚ
  vz : ℚ
  onGround : Bool
deriving DecidableEq

/-- Upper bound on the stored y coordinates (0 for an empty store); only
used to bound the defensive upward-snap loop. -/
def maxBY : Blocks → ℤ
  | [] => 0
  | e :: r => max e.1.2.1 (maxBY r)

/-- Defensive upward snap of the Y resolution: while the snapped AABB still
collides, shift up one cell.  Fuel-indexed; snapFuel below always
suffices. -/
def snapUp (bs : Blocks) (minX minZ maxX maxZ : ℚ) : ℕ → ℚ → ℚ
  | 0, y => y
  | fuel + 1, y =>
    if collides minX y minZ maxX (y + PLAYER_H) maxZ bs then
      snapUp bs minX minZ maxX maxZ fuel (y + 1)
    else y

/-- Sufficient fuel for snapUp from start height y. -/
def snapFuel (bs : Blocks) (y : ℚ) : ℕ :=
  (⌈(maxBY bs : ℚ) + 1 - y⌉).toNat + 1

/-- Y-axis sub-step resolution: tentative vertical move; when blocked while
falling, snap the feet onto the top of the candidate block and defensively
shift up until clear; when blocked moving up, just stop; when free, accept
the move and probe a thin slab below the feet for the grounded flag. -/
def phaseY (bs : Blocks) (step : ℚ) (st : FState) : FState :=
  if collides (st.px - HALF) (st.py + st.vy * step) (st.pz - HALF)
      (st.px + HALF) (st.py + st.vy * step + PLAYER_H) (st.pz + HALF) bs then
    if st.vy ≤ 0 then
      { st with
          py := snapUp bs (st.px - HALF) (st.pz - HALF) (st.px + HALF) (st.pz + HALF)
            (snapFuel bs ((⌈st.py + st.vy * step - 1/2 + 1/1000⌉ : ℤ) + 1/2))
            ((⌈st.py + st.vy * step - 1/2 + 1/1000⌉ : ℤ) + 1/2),
          vy := 0,
          onGround := true }
    else { st with vy := 0 }
  else
    { st with
        py := st.py + st.vy * step,
        onGround := collides (st.px - HALF) (st.py + st.vy * step - 1/50) (st.pz - HALF)
          (st.px + HALF) (st.py + st.vy * step + 1/50) (st.pz + HALF) bs }

/-- X-axis sub-step resolution: blocked means zero the axis velocity, free
means accept the move. -/
def phaseX (bs : Blocks) (step : ℚ) (st : FState) : FState :=
  if collides (st.px + st.vx * step - HALF) st.py (st.pz - HALF)
      (st.px + st.vx * step + HALF) (st.py + PLAYER_H) (st.pz + HALF) bs then
    { st with vx := 0 }
  else { st with px := st.px + st.vx * step }

/-- Z-axis sub-step resolution. -/
def phaseZ (bs : Blocks) (step : ℚ) (st : FState) : FState :=
  if collides (st.px - HALF) st.py (st.pz + st.vz * step - HALF)
      (st.px + HALF) (st.py + PLAYER_H) (st.pz + st.vz * step + HALF) bs then
    { st with vz := 0 }
  else { st with pz := st.pz + st.vz * step }

/-- One sub-step: axes resolved in the order Y, X, Z. -/
def subStep (bs : Blocks) (step : ℚ) (st : FState) : FState :=
  phaseZ bs step (phaseX bs step (phaseY bs step st))

/-- The sub-step while loop: run sub-steps of at most SUB_DT until the
remaining time is at most 0.0001.  Fuel-indexed; fuel 8 suffices for every
clamped frame delta (subLoop_fuel_stable). -/
def subLoop (bs : Blocks) : ℕ → ℚ → FState → FState
  | 0, _, st => st
  | fuel + 1, remaining, st =>
    if remaining > 1/10000 then
      subLoop bs fuel (remaining - min remaining SUB_DT)
        (subStep bs (min remaining SUB_DT) st)
    else st

/-- Respawn check: feet below the void threshold teleport the player to the
spawn point with zero vertical velocity and a cleared grounded flag. -/
def respawnCheck (st : FState) : FState :=
  if st.py < RESPAWN_Y then
    { st with px := 0, py := 15, pz := 0, vy := 0, onGround := false }
  else st

/-- Jump handling at the top of the frame. -/
def applyJump (jump : Bool) (st : FState) : FState :=
  if jump && st.onGround then { st with vy := JUMP_VEL, onGround := false }
  else st

/-- Gravity accumulation with the terminal fall-speed clamp. -/
def applyGravity (dt : ℚ) (st : FState) : FState :=
  if st.vy + GRAVITY * dt < -40 then { st with vy := -40 }
  else { st with vy := st.vy + GRAVITY * dt }

/-- One physics frame of the useFrame callback: clamp the elapsed time to
0.1 s, apply jump, gravity and the fall-speed clamp, load the input-derived
horizontal velocity, run the sub-stepped axis-split integration, then the
respawn check.  The camera-relative horizontal velocity derivation is
trigonometric on doubles, so vx and vz enter as parameters. -/
def frame (bs : Blocks) (jump : Bool) (vx vz rawDt : ℚ) (st : FState) : FState :=
  respawnCheck (subLoop bs 8 (min rawDt (1/10))
    { applyGravity (min rawDt (1/10)) (applyJump jump st) with vx := vx, vz := vz })

/-- Continuous axis-aligned box. -/
structure Box where
  minX : ℚ
  minY : ℚ
  minZ : ℚ
  maxX : ℚ
  maxY : ℚ
  maxZ : ℚ

/-- The player AABB of a controller state: feet-anchored, half-width
footprint, PLAYER_H upward from the feet. -/
def aabb (st : FState) : Box :=
  ⟨st.px - HALF, st.py, st.pz - HALF, st.px + HALF, st.py + PLAYER_H, st.pz + HALF⟩

/-- Exact open-overlap test between a box and the unit cube centered at an
integer cell, exactly the inner test of collides. -/
def cubeOverlap (a : Box) (b : Pos3) : Prop :=
  ((b.1 : ℚ) - 1/2 < a.maxX ∧ a.minX < (b.1 : ℚ) + 1/2) ∧
  ((b.2.1 : ℚ) - 1/2 < a.maxY ∧ a.minY < (b.2.1 : ℚ) + 1/2) ∧
  ((b.2.2 : ℚ) - 1/2 < a.maxZ ∧ a.minZ < (b.2.2 : ℚ) + 1/2)

/-- Epsilon-tightened overlap: the cell lies in the candidate coordinate
range of collides on all three axes; equivalently, the closed cube shrunk
by the 0.001 epsilon to half-width 0.499 meets the closed box. -/
def epsOverlap (a : Box) (b : Pos3) : Prop :=
  (a.minX - 499/1000 ≤ (b.1 : ℚ) ∧ (b.1 : ℚ) ≤ a.maxX + 499/1000) ∧
  (a.minY - 499/1000 ≤ (b.2.1 : ℚ) ∧ (b.2.1 : ℚ) ≤ a.maxY + 499/1000) ∧
  (a.minZ - 499/1000 ≤ (b.2.2 : ℚ) ∧ (b.2.2 : ℚ) ≤ a.maxZ + 499/1000)

/-- Collision-freedom of a controller state against a store. -/
def noCollide (bs : Blocks) (st : FState) : Prop :=
  collides (st.px - HALF) st.py (st.pz - HALF)
    (st.px + HALF) (st.py + PLAYER_H) (st.pz + HALF) bs = false

/-! ## Codec lemmas -/

theorem natDigits_zero : natDigits 0 = [] := by
  unfold natDigits
  simp

theorem natDigits_succ (n : ℕ) (h : n ≠ 0) :
    natDigits n = n % 10 :: natDigits (n / 10) := by
  rw [natDigits]
  simp [h]

theorem natDigits_lt (n : ℕ) : ∀ d ∈ natDigits n, d < 10 := by
  induction n using Nat.strong_induction_on with
  | _ n ih =>
    by_cases h : n = 0
    · subst h
      simp [natDigits_zero]
    · rw [natDigits_succ n h]
      intro d hd
      rcases List.mem_cons.mp hd with h1 | h1
      · subst h1
        omega
      · exact ih (n / 10) (Nat.div_lt_self (Nat.pos_of_ne_zero h) (by norm_num)) d h1

theorem natDigits_val (n : ℕ) :
    ((natDigits n).reverse).foldl (fun a d => 10 * a + d) 0 = n := by
  induction n using Nat.strong_induction_on with
  | _ n ih =>
    by_cases h : n = 0
    · subst h
      simp [natDigits_zero]
    · rw [natDigits_succ n h]
      simp only [List.reverse_cons, List.foldl_append, List.foldl_cons, List.foldl_nil]
      rw [ih (n / 10) (Nat.div_lt_self (Nat.pos_of_ne_zero h) (by norm_num))]
      omega

theorem digitVal_digitChar (d : ℕ) (h : d < 10) : digitVal (digitChar d) = some d := by
  interval_cases d <;> decide

theorem digitChar_is_digit (d : ℕ) (h : d < 10) :
    48 ≤ (digitChar d).toNat ∧ (digitChar d).toNat ≤ 57 := by
  interval_cases d <;> decide

theorem parseNatAux_digits (ds : List ℕ) (h : ∀ d ∈ ds, d < 10) (acc : ℕ) :
    parseNatAux acc (ds.map digitChar) = some (ds.foldl (fun a d => 10 * a + d) acc) := by
  induction ds generalizing acc with
  | nil => rfl
  | cons d r ih =>
    simp only [List.map_cons, parseNatAux, digitVal_digitChar d (h d (by simp)),
      List.foldl_cons]
    exact ih (fun x hx => h x (by simp [hx])) _

theorem parseNatAux_natChars (n : ℕ) : parseNatAux 0 (natChars n) = some n := by
  unfold natChars
  by_cases h : n = 0
  · subst h
    simp
    rfl
  · simp only [h, if_false]
    rw [← List.map_reverse,
      parseNatAux_digits _ (fun d hd => natDigits_lt n d (List.mem_reverse.mp hd))]
    rw [natDigits_val]

theorem natChars_all_digits (n : ℕ) :
    ∀ c ∈ natChars n, 48 ≤ c.toNat ∧ c.toNat ≤ 57 := by
  unfold natChars
  by_cases h : n = 0
  · subst h
    simp only [if_true]
    intro c hc
    simp at hc
    subst hc
    decide
  · simp only [h, if_false]
    intro c hc
    obtain ⟨d, hd, hdc⟩ := List.mem_map.mp (List.mem_reverse.mp hc)
    subst hdc
    exact digitChar_is_digit d (natDigits_lt n d hd)

theorem natChars_ne_nil (n : ℕ) : natChars n ≠ [] := by
  unfold natChars
  by_cases h : n = 0
  · simp [h]
  · simp only [h, if_false]
    simp only [ne_eq, List.reverse_eq_nil_iff, List.map_eq_nil_iff]
    rw [natDigits_succ n h]
    simp

theorem comma_not_mem_natChars (n : ℕ) : ',' ∉ natChars n := by
  intro h
  have := natChars_all_digits n ',' h
  revert this
  decide

theorem comma_not_mem_intChars (x : ℤ) : ',' ∉ intChars x := by
  unfold intChars
  by_cases h : x < 0
  · simp only [h, if_true]
    intro hm
    rcases List.mem_cons.mp hm with h1 | h1
    · revert h1
      decide
    · exact comma_not_mem_natChars _ h1
  · simp only [h, if_false]
    exact comma_not_mem_natChars _

theorem jsNumber_digit_run (s : List Char) (hne : s ≠ [])
    (hd : ∀ c ∈ s, 48 ≤ c.toNat ∧ c.toNat ≤ 57) :
    jsNumber s = (parseNatAux 0 s).map (fun n => (n : ℤ)) := by
  cases s with
  | nil => exact absurd rfl hne
  | cons c r =>
    have hc : c ≠ '-' := by
      intro h
      subst h
      have := hd '-' (by simp)
      revert this
      decide
    simp [jsNumber, hc]

theorem jsNumber_neg_run (s : List Char) (hne : s ≠ []) :
    jsNumber ('-' :: s) = (parseNatAux 0 s).map (fun n => -(n : ℤ)) := by
  rw [jsNumber, if_pos rfl, if_neg hne]

theorem jsNumber_intChars (x : ℤ) : jsNumber (intChars x) = some x := by
  unfold intChars
  by_cases hx : x < 0
  · simp only [hx, if_true]
    rw [jsNumber_neg_run _ (natChars_ne_nil _), parseNatAux_natChars]
    show some (-(x.natAbs : ℤ)) = some x
    congr 1
    omega
  · simp only [hx, if_false]
    rw [jsNumber_digit_run _ (natChars_ne_nil _) (natChars_all_digits _),
      parseNatAux_natChars]
    show some ((x.natAbs : ℤ)) = some x
    congr 1
    omega

theorem splitComma_no_comma (s : List Char) (h : ',' ∉ s) : splitComma s = [s] := by
  induction s with
  | nil => rfl
  | cons c r ih =>
    have hc : ¬(c = ',') := by
      intro e
      exact h (by simp [e])
    rw [splitComma, if_neg hc, ih (fun hm => h (by simp [hm]))]

theorem splitComma_append (s t : List Char) (h : ',' ∉ s) :
    splitComma (s ++ ',' :: t) = s :: splitComma t := by
  induction s with
  | nil =>
    show splitComma (',' :: t) = [] :: splitComma t
    rw [splitComma, if_pos rfl]
  | cons c r ih =>
    have hc : ¬(c = ',') := by
      intro e
      exact h (by simp [e])
    have ihr := ih (fun hm => h (by simp [hm]))
    show splitComma (c :: (r ++ ',' :: t)) = (c :: r) :: splitComma t
    rw [splitComma, if_neg hc, ihr]

theorem splitComma_posKey (x y z : ℤ) :
    splitComma (posKey x y z) = [intChars x, intChars y, intChars z] := by
  unfold posKey
  rw [splitComma_append _ _ (comma_not_mem_intChars x),
    splitComma_append _ _ (comma_not_mem_intChars y),
    splitComma_no_comma _ (comma_not_mem_intChars z)]

theorem posKey_count_comma (x y z : ℤ) : (posKey x y z).count ',' = 2 := by
  unfold posKey
  rw [List.count_append, List.count_cons_self, List.count_append, List.count_cons_self]
  rw [List.count_eq_zero.mpr (comma_not_mem_intChars x),
    List.count_eq_zero.mpr (comma_not_mem_intChars y),
    List.count_eq_zero.mpr (comma_not_mem_intChars z)]

/-- C5: spatial key codec round-trip: decoding the encoded key of any
integer coordinate triple returns exactly the original coordinates. -/
theorem C5_codec_roundtrip (x y z : ℤ) :
    keyToPos (posKey x y z) = (some x, some y, some z) := by
  unfold keyToPos
  rw [splitComma_posKey]
  simp [jsNumberOpt, jsNumber_intChars]

/-- C9 (amended): decode does not fail loudly on malformed keys.  A key
with extra comma-separated parts appended to a well-formed encoding is not
the encoding of any triple, yet keyToPos returns through the normal control
path with the first three components decoded. -/
theorem C9_amended_decode_returns_normally (x y z : ℤ) (extra : List Char) :
    keyToPos (posKey x y z ++ ',' :: extra) = (some x, some y, some z) := by
  unfold keyToPos posKey
  have h1 : (intChars x ++ ',' :: (intChars y ++ ',' :: intChars z)) ++ ',' :: extra
      = intChars x ++ ',' :: (intChars y ++ ',' :: (intChars z ++ ',' :: extra)) := by
    simp only [List.cons_append, List.append_assoc]
  rw [h1, splitComma_append _ _ (comma_not_mem_intChars x),
    splitComma_append _ _ (comma_not_mem_intChars y),
    splitComma_append _ _ (comma_not_mem_intChars z)]
  simp [jsNumberOpt, jsNumber_intChars]

/-- C9 (counterexample): the malformed key "1,2,3,4" is not the encoding
of any integer triple, yet keyToPos neither throws nor signals: it returns
the ordinary triple (1, 2, 3) through the normal control path. -/
theorem C9_counterexample :
    (∀ x y z : ℤ, posKey x y z ≠ ['1', ',', '2', ',', '3', ',', '4']) ∧
    keyToPos ['1', ',', '2', ',', '3', ',', '4'] = (some 1, some 2, some 3) := by
  constructor
  · intro x y z he
    have h2 := posKey_count_comma x y z
    rw [he] at h2
    revert h2
    decide
  · decide

/-! ## Store lemmas and store claims -/

theorem getBlock_setBlock (bs : Blocks) (p : Pos3) (t : BlockType) (q : Pos3) :
    getBlock (setBlock bs p t) q = if p = q then some t else getBlock bs q := by
  rfl

theorem getBlock_delBlock_self (bs : Blocks) (p : Pos3) :
    getBlock (delBlock bs p) p = none := by
  induction bs with
  | nil => rfl
  | cons e r ih =>
    rw [delBlock]
    by_cases h : e.1 = p
    · rw [if_pos h]
      exact ih
    · rw [if_neg h, getBlock, if_neg h]
      exact ih

/-- C2: on an unoccupied position that does not overlap the stored player
position (in the sense of the store's overlapsPlayer guard), add succeeds,
after which get returns the active block type and the version counter is
exactly one greater; a subsequent add on the now-occupied position (with
any newly selected active type) returns false, mutates nothing, and leaves
both the stored type and the version unchanged. -/
theorem C2_add_success_then_duplicate_rejected (s : StoreState) (p : Pos3)
    (h1 : getBlock s.blocks p = none)
    (h2 : overlapsPlayer p.1 p.2.1 p.2.2 s.playerPosition = false) :
    (addBlock s p).2 = true ∧
    getBlock (addBlock s p).1.blocks p = some s.activeBlockType ∧
    (addBlock s p).1.blockVersion = s.blockVersion + 1 ∧
    ∀ t2 : BlockType,
      addBlock (setActiveBlockType (addBlock s p).1 t2) p
        = (setActiveBlockType (addBlock s p).1 t2, false) ∧
      getBlock (setActiveBlockType (addBlock s p).1 t2).blocks p
        = some s.activeBlockType ∧
      (setActiveBlockType (addBlock s p).1 t2).blockVersion = s.blockVersion + 1 := by
  have hadd : addBlock s p =
      ({ s with
          blocks := setBlock s.blocks p s.activeBlockType,
          blockVersion := s.blockVersion + 1 }, true) := by
    unfold addBlock
    rw [h1]
    simp [h2]
  rw [hadd]
  refine ⟨rfl, ?_, rfl, ?_⟩
  · rw [getBlock_setBlock, if_pos rfl]
  · intro t2
    have hocc : getBlock
        (setActiveBlockType ({ s with
          blocks := setBlock s.blocks p s.activeBlockType,
          blockVersion := s.blockVersion + 1 }) t2).blocks p = some s.activeBlockType := by
      show getBlock (setBlock s.blocks p s.activeBlockType) p = some s.activeBlockType
      rw [getBlock_setBlock, if_pos rfl]
    refine ⟨?_, hocc, rfl⟩
    unfold addBlock
    rw [hocc]
    rfl

/-- C2 witness: the spec scenario add((5,10,5), stone) then add of wood at
the same cell, from an empty store with the player at the origin. -/
theorem C2_witness :
    getBlock (⟨[], 0, BlockType.stone, (0, 0, 0)⟩ : StoreState).blocks (5, 10, 5) = none ∧
    overlapsPlayer 5 10 5 (0, 0, 0) = false ∧
    ((addBlock ⟨[], 0, BlockType.stone, (0, 0, 0)⟩ (5, 10, 5)).2 = true ∧
     getBlock (addBlock ⟨[], 0, BlockType.stone, (0, 0, 0)⟩ (5, 10, 5)).1.blocks (5, 10, 5)
       = some BlockType.stone ∧
     (addBlock ⟨[], 0, BlockType.stone, (0, 0, 0)⟩ (5, 10, 5)).1.blockVersion = 0 + 1 ∧
     ∀ t2 : BlockType,
       addBlock (setActiveBlockType
           (addBlock ⟨[], 0, BlockType.stone, (0, 0, 0)⟩ (5, 10, 5)).1 t2) (5, 10, 5)
         = (setActiveBlockType
             (addBlock ⟨[], 0, BlockType.stone, (0, 0, 0)⟩ (5, 10, 5)).1 t2, false) ∧
       getBlock (setActiveBlockType
           (addBlock ⟨[], 0, BlockType.stone, (0, 0, 0)⟩ (5, 10, 5)).1 t2).blocks (5, 10, 5)
         = some BlockType.stone ∧
       (setActiveBlockType
           (addBlock ⟨[], 0, BlockType.stone, (0, 0, 0)⟩ (5, 10, 5)).1 t2).blockVersion
         = 0 + 1) := by
  refine ⟨rfl, ?_, ?_⟩
  · norm_num [overlapsPlayer]
  · exact C2_add_success_then_duplicate_rejected ⟨[], 0, BlockType.stone, (0, 0, 0)⟩
      (5, 10, 5) rfl (by norm_num [overlapsPlayer])

/-- Modelled from the claim wording of C3: overlap between the unit cube
of a cell and the feet-anchored player AABB (HALF half-width footprint,
PLAYER_H upward from the feet).  This is the geometry the claim asserts
the guard uses; the code's overlapsPlayer uses a vertical band of ±0.9
around the feet instead. -/
def feetAABBOverlap (bx b2 bz : ℤ) (pp : ℚ × ℚ × ℚ) : Prop :=
  (pp.1 - HALF < (bx : ℚ) + 1/2 ∧ (bx : ℚ) - 1/2 < pp.1 + HALF) ∧
  (pp.2.1 < (b2 : ℚ) + 1/2 ∧ (b2 : ℚ) - 1/2 < pp.2.1 + PLAYER_H) ∧
  (pp.2.2 - HALF < (bz : ℚ) + 1/2 ∧ (bz : ℚ) - 1/2 < pp.2.2 + HALF)

/-- C3 (counterexample): the cell (0, 2, 0) overlaps the feet-anchored
player AABB of a player standing at the origin (the cube bottom 1.5 is
below the head top 1.7), yet add succeeds there and bumps the version:
the code's guard only covers the vertical band feet ± 0.9. -/
theorem C3_counterexample :
    feetAABBOverlap 0 2 0 (0, 0, 0) ∧
    (addBlock ⟨[], 0, BlockType.stone, (0, 0, 0)⟩ (0, 2, 0)).2 = true ∧
    (addBlock ⟨[], 0, BlockType.stone, (0, 0, 0)⟩ (0, 2, 0)).1.blockVersion = 1 := by
  refine ⟨by norm_num [feetAABBOverlap, HALF, PLAYER_H], ?_, ?_⟩ <;>
    norm_num [addBlock, getBlock, overlapsPlayer, setBlock]

/-- C3 (amended): whenever the target cell lies in the guard region the
store actually tests - the vertical band feet y ± 0.9 intersected with the
horizontal bands |bx - px| < 0.8 and |bz - pz| < 0.8 - add always returns
false and performs no mutation and no version bump, regardless of
occupancy. -/
theorem C3_amended_guard_rejects (s : StoreState) (p : Pos3)
    (h : overlapsPlayer p.1 p.2.1 p.2.2 s.playerPosition = true) :
    addBlock s p = (s, false) := by
  unfold addBlock
  by_cases hocc : (getBlock s.blocks p).isSome
  · simp [hocc]
  · simp [hocc, h]

/-- C3 witness: a cell inside the guard band is rejected. -/
theorem C3_witness :
    overlapsPlayer 0 0 0 ((0 : ℚ), (0 : ℚ), (0 : ℚ)) = true ∧
    addBlock ⟨[], 7, BlockType.wood, (0, 0, 0)⟩ (0, 0, 0)
      = (⟨[], 7, BlockType.wood, (0, 0, 0)⟩, false) := by
  have h : overlapsPlayer 0 0 0 ((0 : ℚ), (0 : ℚ), (0 : ℚ)) = true := by
    norm_num [overlapsPlayer, abs_lt]
  exact ⟨h, C3_amended_guard_rejects ⟨[], 7, BlockType.wood, (0, 0, 0)⟩ (0, 0, 0) h⟩

/-- C4: removing an occupied cell succeeds, empties the cell and bumps the
version by exactly one; removing an already-empty (including a
never-populated) cell returns false and mutates nothing. -/
theorem C4_remove_and_empty_rejected (s : StoreState) (p : Pos3) :
    ((getBlock s.blocks p).isSome = true →
      (removeBlock s p).2 = true ∧
      getBlock (removeBlock s p).1.blocks p = none ∧
      (removeBlock s p).1.blockVersion = s.blockVersion + 1) ∧
    (getBlock s.blocks p = none → removeBlock s p = (s, false)) := by
  constructor
  · intro h
    have hne : ¬(getBlock s.blocks p = none) := by
      intro he
      rw [he] at h
      exact Bool.false_ne_true h
    unfold removeBlock
    rw [if_neg hne]
    exact ⟨rfl, getBlock_delBlock_self s.blocks p, rfl⟩
  · intro h
    unfold removeBlock
    rw [if_pos h]

/-- C4 witness: removing the one stored block succeeds and leaves the cell
empty at version 6; removing a never-populated cell is a rejected no-op. -/
theorem C4_witness :
    (removeBlock ⟨[((1, 2, 3), BlockType.wood)], 5, BlockType.stone, (0, 0, 0)⟩ (1, 2, 3)).2
      = true ∧
    getBlock (removeBlock ⟨[((1, 2, 3), BlockType.wood)], 5, BlockType.stone, (0, 0, 0)⟩
      (1, 2, 3)).1.blocks (1, 2, 3) = none ∧
    (removeBlock ⟨[((1, 2, 3), BlockType.wood)], 5, BlockType.stone, (0, 0, 0)⟩
      (1, 2, 3)).1.blockVersion = 5 + 1 ∧
    removeBlock ⟨[((1, 2, 3), BlockType.wood)], 5, BlockType.stone, (0, 0, 0)⟩ (9, 9, 9)
      = (⟨[((1, 2, 3), BlockType.wood)], 5, BlockType.stone, (0, 0, 0)⟩, false) := by
  obtain ⟨ha, hb, hc⟩ :=
    (C4_remove_and_empty_rejected
      ⟨[((1, 2, 3), BlockType.wood)], 5, BlockType.stone, (0, 0, 0)⟩ (1, 2, 3)).1 (by decide)
  exact ⟨ha, hb, hc,
    (C4_remove_and_empty_rejected
      ⟨[((1, 2, 3), BlockType.wood)], 5, BlockType.stone, (0, 0, 0)⟩ (9, 9, 9)).2 (by decide)⟩

/-- C8: at the respawn check, feet strictly below the void threshold -20
relocate the player to exactly (0, 15, 0), zero the vertical velocity and
clear the grounded flag; feet at or above the threshold leave position,
velocity and the flag unchanged. -/
theorem C8_respawn (st : FState) :
    (st.py < RESPAWN_Y →
      respawnCheck st = { st with px := 0, py := 15, pz := 0, vy := 0, onGround := false }) ∧
    (RESPAWN_Y ≤ st.py → respawnCheck st = st) := by
  constructor
  · intro h
    unfold respawnCheck
    rw [if_pos h]
  · intro h
    unfold respawnCheck
    rw [if_neg (not_lt.mpr h)]

/-- C8 witness: a player at feet elevation -30 respawns to (0, 15, 0) with
zero vertical velocity and a cleared grounded flag; a player at feet
elevation 0 is untouched by the check. -/
theorem C8_witness :
    ((-30 : ℚ) < RESPAWN_Y) ∧
    respawnCheck ⟨1, -30, 2, 3, -5, 4, true⟩ = ⟨0, 15, 0, 3, 0, 4, false⟩ ∧
    (RESPAWN_Y ≤ (0 : ℚ)) ∧
    respawnCheck ⟨1, 0, 2, 3, -5, 4, true⟩ = ⟨1, 0, 2, 3, -5, 4, true⟩ := by
  refine ⟨by norm_num [RESPAWN_Y], ?_, by norm_num [RESPAWN_Y], ?_⟩
  · rw [(C8_respawn ⟨1, -30, 2, 3, -5, 4, true⟩).1 (by norm_num [RESPAWN_Y])]
  · rw [(C8_respawn ⟨1, 0, 2, 3, -5, 4, true⟩).2 (by norm_num [RESPAWN_Y])]

/-- C10 (implicit): setPlayerPosition stores the new position only when
the squared displacement from the stored position exceeds 0.25 (that is,
the displacement exceeds 0.5); any smaller move leaves the stored
position - the value addBlock's overlap guard reads - unchanged. -/
theorem C10_setPlayerPosition_threshold (s : StoreState) (pos : ℚ × ℚ × ℚ) :
    ((pos.1 - s.playerPosition.1) * (pos.1 - s.playerPosition.1) +
        (pos.2.1 - s.playerPosition.2.1) * (pos.2.1 - s.playerPosition.2.1) +
        (pos.2.2 - s.playerPosition.2.2) * (pos.2.2 - s.playerPosition.2.2) > 1/4 →
      setPlayerPosition s pos = { s with playerPosition := pos }) ∧
    ((pos.1 - s.playerPosition.1) * (pos.1 - s.playerPosition.1) +
        (pos.2.1 - s.playerPosition.2.1) * (pos.2.1 - s.playerPosition.2.1) +
        (pos.2.2 - s.playerPosition.2.2) * (pos.2.2 - s.playerPosition.2.2) ≤ 1/4 →
      setPlayerPosition s pos = s) := by
  constructor
  · intro h
    unfold setPlayerPosition
    rw [if_pos h]
  · intro h
    unfold setPlayerPosition
    rw [if_neg (not_lt.mpr h)]

/-- C10 witness: a displacement of exactly 0.5 (squared 0.25) is dropped,
so the stored position stays a half unit stale; a displacement of 1 is
stored. -/
theorem C10_witness :
    (((1 : ℚ) - 0) * ((1 : ℚ) - 0) + ((0 : ℚ) - 0) * ((0 : ℚ) - 0) +
        ((0 : ℚ) - 0) * ((0 : ℚ) - 0) > 1/4) ∧
    setPlayerPosition ⟨[], 0, BlockType.stone, (0, 0, 0)⟩ (1, 0, 0)
      = ⟨[], 0, BlockType.stone, (1, 0, 0)⟩ ∧
    (((1/2 : ℚ) - 0) * ((1/2 : ℚ) - 0) + ((0 : ℚ) - 0) * ((0 : ℚ) - 0) +
        ((0 : ℚ) - 0) * ((0 : ℚ) - 0) ≤ 1/4) ∧
    setPlayerPosition ⟨[], 0, BlockType.stone, (0, 0, 0)⟩ (1/2, 0, 0)
      = ⟨[], 0, BlockType.stone, (0, 0, 0)⟩ := by
  refine ⟨by norm_num, ?_, by norm_num, ?_⟩
  · rw [(C10_setPlayerPosition_threshold ⟨[], 0, BlockType.stone, (0, 0, 0)⟩ (1, 0, 0)).1
      (by norm_num)]
  · rw [(C10_setPlayerPosition_threshold ⟨[], 0, BlockType.stone, (0, 0, 0)⟩ (1/2, 0, 0)).2
      (by norm_num)]

/-! ## Collision query lemmas and C6 -/

theorem mem_intRangeAux {a : ℤ} {n : ℕ} {m : ℤ} :
    m ∈ intRangeAux a n ↔ a ≤ m ∧ m < a + n := by
  induction n generalizing a with
  | zero =>
    simp [intRangeAux]
  | succ k ih =>
    simp [intRangeAux, ih]
    omega

theorem mem_intRange {a b m : ℤ} : m ∈ intRange a b ↔ a ≤ m ∧ m ≤ b := by
  unfold intRange
  rw [mem_intRangeAux]
  omega

theorem occupied_iff_mem {bs : Blocks} {p : Pos3} :
    occupied bs p = true ↔ ∃ e ∈ bs, e.1 = p := by
  unfold occupied
  induction bs with
  | nil => simp [getBlock]
  | cons e r ih =>
    by_cases h : e.1 = p
    · simp [getBlock, h]
    · simp [getBlock, h, ih]

theorem epsOverlap_imp_cubeOverlap {a : Box} {b : Pos3} (h : epsOverlap a b) :
    cubeOverlap a b := by
  obtain ⟨⟨h1, h2⟩, ⟨h3, h4⟩, ⟨h5, h6⟩⟩ := h
  exact ⟨⟨by linarith, by linarith⟩, ⟨by linarith, by linarith⟩,
    ⟨by linarith, by linarith⟩⟩

theorem collides_iff {minX minY minZ maxX maxY maxZ : ℚ} {bs : Blocks} :
    collides minX minY minZ maxX maxY maxZ bs = true ↔
      ∃ e ∈ bs, epsOverlap ⟨minX, minY, minZ, maxX, maxY, maxZ⟩ e.1 := by
  unfold collides
  simp only [List.any_eq_true, Bool.and_eq_true, decide_eq_true_eq, mem_intRange]
  constructor
  · rintro ⟨bx, ⟨hx0, hx1⟩, b2, ⟨hy0, hy1⟩, bz, ⟨hz0, hz1⟩,
      ⟨⟨⟨⟨⟨⟨hocc, _⟩, _⟩, _⟩, _⟩, _⟩, _⟩⟩
    obtain ⟨e, he, hkey⟩ := occupied_iff_mem.mp hocc
    refine ⟨e, he, ?_⟩
    rw [hkey]
    have h1 : minX - 1/2 + 1/1000 ≤ (bx : ℚ) := Int.ceil_le.mp hx0
    have h2 : (bx : ℚ) ≤ maxX + 1/2 - 1/1000 := Int.le_floor.mp hx1
    have h3 : minY - 1/2 + 1/1000 ≤ (b2 : ℚ) := Int.ceil_le.mp hy0
    have h4 : (b2 : ℚ) ≤ maxY + 1/2 - 1/1000 := Int.le_floor.mp hy1
    have h5 : minZ - 1/2 + 1/1000 ≤ (bz : ℚ) := Int.ceil_le.mp hz0
    have h6 : (bz : ℚ) ≤ maxZ + 1/2 - 1/1000 := Int.le_floor.mp hz1
    exact ⟨⟨by linarith, by linarith⟩, ⟨by linarith, by linarith⟩,
      ⟨by linarith, by linarith⟩⟩
  · rintro ⟨e, he, heps⟩
    obtain ⟨⟨ex1, ex2⟩, ⟨ey1, ey2⟩, ⟨ez1, ez2⟩⟩ := heps
    refine ⟨e.1.1, ⟨Int.ceil_le.mpr (by linarith), Int.le_floor.mpr (by linarith)⟩,
      e.1.2.1, ⟨Int.ceil_le.mpr (by linarith), Int.le_floor.mpr (by linarith)⟩,
      e.1.2.2, ⟨Int.ceil_le.mpr (by linarith), Int.le_floor.mpr (by linarith)⟩,
      ⟨⟨⟨⟨⟨⟨?_, by linarith⟩, by linarith⟩, by linarith⟩, by linarith⟩, by linarith⟩,
        by linarith⟩⟩
    exact occupied_iff_mem.mpr ⟨e, he, rfl⟩

theorem collides_eq_false_iff {minX minY minZ maxX maxY maxZ : ℚ} {bs : Blocks} :
    collides minX minY minZ maxX maxY maxZ bs = false ↔
      ∀ e ∈ bs, ¬ epsOverlap ⟨minX, minY, minZ, maxX, maxY, maxZ⟩ e.1 := by
  rw [Bool.eq_false_iff, Ne, collides_iff]
  push_neg
  rfl

/-- C6 (amended): collides returns true iff some occupied cell lies within
the epsilon-derived candidate coordinate range on all three axes
(equivalently: the cell's 0.499-shrunk closed cube meets the closed query
AABB); every such cell also passes the exact open-overlap test, so the
inner test never rejects a candidate.  The original claim's full iff with
the exact test fails only for cells whose overlap is thinner than the
0.001 epsilon (see the counterexample). -/
theorem C6_amended_overlap_query (minX minY minZ maxX maxY maxZ : ℚ) (bs : Blocks) :
    (collides minX minY minZ maxX maxY maxZ bs = true ↔
      ∃ e ∈ bs, epsOverlap ⟨minX, minY, minZ, maxX, maxY, maxZ⟩ e.1) ∧
    (∀ e : Pos3 × BlockType, epsOverlap ⟨minX, minY, minZ, maxX, maxY, maxZ⟩ e.1 →
      cubeOverlap ⟨minX, minY, minZ, maxX, maxY, maxZ⟩ e.1) :=
  ⟨collides_iff, fun _ h => epsOverlap_imp_cubeOverlap h⟩

/-- C6 (counterexample): a store holding one block at the origin and an
AABB overlapping that cube by 0.0005 on the x axis: the exact AABB-AABB
test holds for an occupied cell, yet collides returns false, because the
epsilon-derived candidate range excludes the cell.  This refutes the
claimed equivalence between collides and the exact test over all occupied
cells. -/
theorem C6_counterexample :
    collides (999/2000) (-2/5) (-2/5) 1 (2/5) (2/5) [((0, 0, 0), BlockType.stone)] = false ∧
    occupied [((0, 0, 0), BlockType.stone)] (0, 0, 0) = true ∧
    cubeOverlap ⟨999/2000, -2/5, -2/5, 1, 2/5, 2/5⟩ (0, 0, 0) := by
  refine ⟨?_, rfl, ?_⟩
  · rw [collides_eq_false_iff]
    intro e he heps
    simp only [List.mem_singleton] at he
    subst he
    norm_num [epsOverlap] at heps
  · norm_num [cubeOverlap]

/-! ## Movement integration invariant (C1) -/

theorem le_maxBY {bs : Blocks} {e : Pos3 × BlockType} (he : e ∈ bs) :
    e.1.2.1 ≤ maxBY bs := by
  induction bs with
  | nil => cases he
  | cons e0 r ih =>
    rw [maxBY]
    rcases List.mem_cons.mp he with h | h
    · subst h
      exact le_max_left _ _
    · exact le_trans (ih h) (le_max_right _ _)

theorem collides_le_maxBY {minX y minZ maxX maxZ : ℚ} {bs : Blocks}
    (h : collides minX y minZ maxX (y + PLAYER_H) maxZ bs = true) :
    y ≤ (maxBY bs : ℚ) + 499/1000 := by
  obtain ⟨e, he, heps⟩ := collides_iff.mp h
  obtain ⟨_, ⟨hy1, _⟩, _⟩ := heps
  have hb : (e.1.2.1 : ℚ) ≤ (maxBY bs : ℚ) := by
    exact_mod_cast le_maxBY he
  linarith

theorem snapUp_noCollide (bs : Blocks) (minX minZ maxX maxZ : ℚ) :
    ∀ fuel : ℕ, ∀ y : ℚ, (⌈(maxBY bs : ℚ) + 1 - y⌉).toNat < fuel →
      collides minX (snapUp bs minX minZ maxX maxZ fuel y) minZ maxX
        (snapUp bs minX minZ maxX maxZ fuel y + PLAYER_H) maxZ bs = false := by
  intro fuel
  induction fuel with
  | zero =>
    intro y h
    omega
  | succ f ih =>
    intro y h
    rw [snapUp]
    by_cases hc : collides minX y minZ maxX (y + PLAYER_H) maxZ bs = true
    · rw [if_pos hc]
      apply ih
      have hb := collides_le_maxBY hc
      have hceil : ⌈(maxBY bs : ℚ) + 1 - (y + 1)⌉ = ⌈(maxBY bs : ℚ) + 1 - y⌉ - 1 := by
        rw [show (maxBY bs : ℚ) + 1 - (y + 1) = ((maxBY bs : ℚ) + 1 - y) - 1 by ring]
        exact Int.ceil_sub_one _
      have hpos : 0 < ⌈(maxBY bs : ℚ) + 1 - y⌉ := by
        rw [Int.lt_ceil]
        push_cast
        linarith
      rw [hceil]
      omega
    · rw [if_neg hc]
      exact Bool.eq_false_iff.mpr hc

theorem noCollide_congr {bs : Blocks} {st st2 : FState}
    (hx : st2.px = st.px) (hy : st2.py = st.py) (hz : st2.pz = st.pz)
    (h : noCollide bs st) : noCollide bs st2 := by
  unfold noCollide at h ⊢
  rw [hx, hy, hz]
  exact h

theorem phaseY_noCollide {bs : Blocks} {step : ℚ} {st : FState}
    (h : noCollide bs st) : noCollide bs (phaseY bs step st) := by
  unfold phaseY
  by_cases hc : collides (st.px - HALF) (st.py + st.vy * step) (st.pz - HALF)
      (st.px + HALF) (st.py + st.vy * step + PLAYER_H) (st.pz + HALF) bs = true
  · rw [if_pos hc]
    by_cases hv : st.vy ≤ 0
    · rw [if_pos hv]
      show collides (st.px - HALF) _ (st.pz - HALF) (st.px + HALF) _ (st.pz + HALF) bs
        = false
      exact snapUp_noCollide bs (st.px - HALF) (st.pz - HALF) (st.px + HALF)
        (st.pz + HALF) _ _ (Nat.lt_succ_self _)
    · rw [if_neg hv]
      exact noCollide_congr rfl rfl rfl h
  · rw [if_neg hc]
    show collides (st.px - HALF) (st.py + st.vy * step) (st.pz - HALF)
      (st.px + HALF) (st.py + st.vy * step + PLAYER_H) (st.pz + HALF) bs = false
    exact Bool.eq_false_iff.mpr hc

theorem phaseX_noCollide {bs : Blocks} {step : ℚ} {st : FState}
    (h : noCollide bs st) : noCollide bs (phaseX bs step st) := by
  unfold phaseX
  by_cases hc : collides (st.px + st.vx * step - HALF) st.py (st.pz - HALF)
      (st.px + st.vx * step + HALF) (st.py + PLAYER_H) (st.pz + HALF) bs = true
  · rw [if_pos hc]
    exact noCollide_congr rfl rfl rfl h
  · rw [if_neg hc]
    show collides (st.px + st.vx * step - HALF) st.py (st.pz - HALF)
      (st.px + st.vx * step + HALF) (st.py + PLAYER_H) (st.pz + HALF) bs = false
    exact Bool.eq_false_iff.mpr hc

theorem phaseZ_noCollide {bs : Blocks} {step : ℚ} {st : FState}
    (h : noCollide bs st) : noCollide bs (phaseZ bs step st) := by
  unfold phaseZ
  by_cases hc : collides (st.px - HALF) st.py (st.pz + st.vz * step - HALF)
      (st.px + HALF) (st.py + PLAYER_H) (st.pz + st.vz * step + HALF) bs = true
  · rw [if_pos hc]
    exact noCollide_congr rfl rfl rfl h
  · rw [if_neg hc]
    show collides (st.px - HALF) st.py (st.pz + st.vz * step - HALF)
      (st.px + HALF) (st.py + PLAYER_H) (st.pz + st.vz * step + HALF) bs = false
    exact Bool.eq_false_iff.mpr hc

theorem subStep_noCollide {bs : Blocks} {step : ℚ} {st : FState}
    (h : noCollide bs st) : noCollide bs (subStep bs step st) :=
  phaseZ_noCollide (phaseX_noCollide (phaseY_noCollide h))

theorem subLoop_noCollide {bs : Blocks} (fuel : ℕ) :
    ∀ (remaining : ℚ) (st : FState), noCollide bs st →
      noCollide bs (subLoop bs fuel remaining st) := by
  induction fuel with
  | zero =>
    intro r st h
    exact h
  | succ f ih =>
    intro r st h
    rw [subLoop]
    by_cases hr : r > 1/10000
    · rw [if_pos hr]
      exact ih _ _ (subStep_noCollide h)
    · rw [if_neg hr]
      exact h

/-- Fuel sufficiency of the sub-step loop embedding: once the fuel covers
the remaining time in units of SUB_DT, adding more fuel does not change the
result; with the frame delta clamped to 0.1 = 6 * SUB_DT, the fuel 8 used
by frame therefore computes the completed while loop. -/
theorem subLoop_fuel_stable {bs : Blocks} :
    ∀ (f : ℕ) (r : ℚ), r ≤ (f : ℚ) * SUB_DT → ∀ st : FState,
      subLoop bs f r st = subLoop bs (f + 1) r st := by
  intro f
  induction f with
  | zero =>
    intro r hr st
    have hnr : ¬(r > 1/10000) := by
      norm_num [SUB_DT] at hr
      norm_num
      linarith
    show st = subLoop bs 1 r st
    rw [subLoop, if_neg hnr]
  | succ f ih =>
    intro r hr st
    conv_lhs => rw [subLoop]
    conv_rhs => rw [subLoop]
    by_cases hr2 : r > 1/10000
    · rw [if_pos hr2, if_pos hr2]
      apply ih
      rcases le_or_lt r SUB_DT with hle | hlt
      · rw [min_eq_left hle]
        simp only [sub_self]
        norm_num [SUB_DT]
      · rw [min_eq_right (le_of_lt hlt)]
        push_cast at hr ⊢
        linarith
    · rw [if_neg hr2, if_neg hr2]

theorem noCollide_iff {bs : Blocks} {st : FState} :
    noCollide bs st ↔ ∀ e ∈ bs, ¬ epsOverlap (aabb st) e.1 := by
  unfold noCollide aabb
  exact collides_eq_false_iff

theorem applyJump_px (j : Bool) (st : FState) : (applyJump j st).px = st.px := by
  unfold applyJump
  split <;> rfl

theorem applyJump_py (j : Bool) (st : FState) : (applyJump j st).py = st.py := by
  unfold applyJump
  split <;> rfl

theorem applyJump_pz (j : Bool) (st : FState) : (applyJump j st).pz = st.pz := by
  unfold applyJump
  split <;> rfl

theorem applyGravity_px (dt : ℚ) (st : FState) : (applyGravity dt st).px = st.px := by
  unfold applyGravity
  split <;> rfl

theorem applyGravity_py (dt : ℚ) (st : FState) : (applyGravity dt st).py = st.py := by
  unfold applyGravity
  split <;> rfl

theorem applyGravity_pz (dt : ℚ) (st : FState) : (applyGravity dt st).pz = st.pz := by
  unfold applyGravity
  split <;> rfl

theorem respawnCheck_cases (bs : Blocks) (st : FState) (h : noCollide bs st) :
    ((respawnCheck st).px = 0 ∧ (respawnCheck st).py = 15 ∧ (respawnCheck st).pz = 0 ∧
      (respawnCheck st).vy = 0 ∧ (respawnCheck st).onGround = false) ∨
    ∀ e ∈ bs, ¬ epsOverlap (aabb (respawnCheck st)) e.1 := by
  unfold respawnCheck
  by_cases hr : st.py < RESPAWN_Y
  · rw [if_pos hr]
    left
    exact ⟨rfl, rfl, rfl, rfl, rfl⟩
  · rw [if_neg hr]
    right
    exact noCollide_iff.mp h

/-- C1 (amended): for every store and every frame input, if the player's
feet-anchored AABB overlaps no occupied cell before the frame, then after
the completed sub-stepped movement integration (elapsed time clamped to
0.1 s, vertical velocity clamped to at least -40, axes resolved Y, X, Z per
sub-step of at most 1/60 s) either the respawn check fired - placing the
player at exactly the spawn point with zero vertical velocity and a cleared
grounded flag - or the resulting AABB stays clear of the 0.001-shrunk
closed volume [b - 0.499, b + 0.499]^3 of every occupied cell b.  The
original claim (clearance of the full cell volume, with no respawn proviso)
fails: penetrations thinner than the candidate-range epsilon survive the
integration (see the counterexample). -/
theorem C1_amended_no_tunneling (bs : Blocks) (jump : Bool) (vx vz rawDt : ℚ)
    (st : FState) (h0 : ∀ e ∈ bs, ¬ cubeOverlap (aabb st) e.1) :
    ((frame bs jump vx vz rawDt st).px = 0 ∧ (frame bs jump vx vz rawDt st).py = 15 ∧
      (frame bs jump vx vz rawDt st).pz = 0 ∧ (frame bs jump vx vz rawDt st).vy = 0 ∧
      (frame bs jump vx vz rawDt st).onGround = false) ∨
    ∀ e ∈ bs, ¬ epsOverlap (aabb (frame bs jump vx vz rawDt st)) e.1 := by
  have h1 : noCollide bs st := by
    rw [noCollide_iff]
    intro e he heps
    exact h0 e he (epsOverlap_imp_cubeOverlap heps)
  have h2 : noCollide bs
      ({ applyGravity (min rawDt (1/10)) (applyJump jump st) with vx := vx, vz := vz }) := by
    refine noCollide_congr ?_ ?_ ?_ h1
    · show (applyGravity (min rawDt (1/10)) (applyJump jump st)).px = st.px
      rw [applyGravity_px, applyJump_px]
    · show (applyGravity (min rawDt (1/10)) (applyJump jump st)).py = st.py
      rw [applyGravity_py, applyJump_py]
    · show (applyGravity (min rawDt (1/10)) (applyJump jump st)).pz = st.pz
      rw [applyGravity_pz, applyJump_pz]
  exact respawnCheck_cases bs
    (subLoop bs 8 (min rawDt (1/10))
      ({ applyGravity (min rawDt (1/10)) (applyJump jump st) with vx := vx, vz := vz }))
    (subLoop_noCollide 8 _ _ h2)

/-- C1 witness: the empty store trivially satisfies the initial
no-overlap hypothesis; a frame from rest at (0, 50, 0) with a 0.1 s clamp
ends clear of every (nonexistent) cell. -/
theorem C1_witness :
    (∀ e ∈ ([] : Blocks), ¬ cubeOverlap (aabb ⟨0, 50, 0, 0, 0, 0, false⟩) e.1) ∧
    (((frame [] false 0 0 (1/10) ⟨0, 50, 0, 0, 0, 0, false⟩).px = 0 ∧
      (frame [] false 0 0 (1/10) ⟨0, 50, 0, 0, 0, 0, false⟩).py = 15 ∧
      (frame [] false 0 0 (1/10) ⟨0, 50, 0, 0, 0, 0, false⟩).pz = 0 ∧
      (frame [] false 0 0 (1/10) ⟨0, 50, 0, 0, 0, 0, false⟩).vy = 0 ∧
      (frame [] false 0 0 (1/10) ⟨0, 50, 0, 0, 0, 0, false⟩).onGround = false) ∨
     ∀ e ∈ ([] : Blocks),
       ¬ epsOverlap (aabb (frame [] false 0 0 (1/10) ⟨0, 50, 0, 0, 0, 0, false⟩)) e.1) :=
  ⟨by simp, C1_amended_no_tunneling [] false 0 0 (1/10) ⟨0, 50, 0, 0, 0, 0, false⟩ (by simp)⟩

theorem subLoop_step (bs : Blocks) (f : ℕ) (r : ℚ) (st : FState) (h : r > 1/10000) :
    subLoop bs (f + 1) r st
      = subLoop bs f (r - min r SUB_DT) (subStep bs (min r SUB_DT) st) := by
  rw [subLoop, if_pos h]

theorem subLoop_done (bs : Blocks) (f : ℕ) (r : ℚ) (st : FState) (h : ¬(r > 1/10000)) :
    subLoop bs (f + 1) r st = st := by
  rw [subLoop, if_neg h]

/-- C1 (counterexample): store with one block at (1, 2, 3), player
standing with the left AABB face exactly on the block face (no overlap),
one frame of 5 ms with leftward speed 0.1: the X resolution accepts a move
whose AABB overlaps the occupied cell by 0.0005, because the cell falls
outside the epsilon-derived candidate range of collides.  The completed
integration therefore ends with the player AABB overlapping an occupied
cell's volume, refuting the claim as stated. -/
theorem C1_counterexample :
    (∀ e ∈ ([((1, 2, 3), BlockType.stone)] : Blocks),
      ¬ cubeOverlap (aabb ⟨9/5, 12/5, 3, 0, 0, 0, false⟩) e.1) ∧
    occupied [((1, 2, 3), BlockType.stone)] (1, 2, 3) = true ∧
    cubeOverlap
      (aabb (frame [((1, 2, 3), BlockType.stone)] false (-(1/10)) 0 (1/200)
        ⟨9/5, 12/5, 3, 0, 0, 0, false⟩)) (1, 2, 3) := by
  have hc1 : collides (3/2) (3839/1600) (27/10) (21/10) (6559/1600) (33/10)
      [((1, 2, 3), BlockType.stone)] = false := by
    rw [collides_eq_false_iff]
    intro e he heps
    simp only [List.mem_singleton] at he
    subst he
    norm_num [epsOverlap] at heps
  have hc2 : collides (3/2) (3807/1600) (27/10) (21/10) (3871/1600) (33/10)
      [((1, 2, 3), BlockType.stone)] = false := by
    rw [collides_eq_false_iff]
    intro e he heps
    simp only [List.mem_singleton] at he
    subst he
    norm_num [epsOverlap] at heps
  have hc3 : collides (2999/2000) (3839/1600) (27/10) (4199/2000) (6559/1600) (33/10)
      [((1, 2, 3), BlockType.stone)] = false := by
    rw [collides_eq_false_iff]
    intro e he heps
    simp only [List.mem_singleton] at he
    subst he
    norm_num [epsOverlap] at heps
  have hY : phaseY [((1, 2, 3), BlockType.stone)] (1/200)
      ⟨9/5, 12/5, 3, -(1/10), -(1/8), 0, false⟩
      = ⟨9/5, 3839/1600, 3, -(1/10), -(1/8), 0, false⟩ := by
    unfold phaseY
    norm_num [HALF, PLAYER_H]
    rw [hc1, hc2]
    all_goals norm_num
  have hX : phaseX [((1, 2, 3), BlockType.stone)] (1/200)
      ⟨9/5, 3839/1600, 3, -(1/10), -(1/8), 0, false⟩
      = ⟨3599/2000, 3839/1600, 3, -(1/10), -(1/8), 0, false⟩ := by
    unfold phaseX
    norm_num [HALF, PLAYER_H]
    rw [hc3]
  have hZ : phaseZ [((1, 2, 3), BlockType.stone)] (1/200)
      ⟨3599/2000, 3839/1600, 3, -(1/10), -(1/8), 0, false⟩
      = ⟨3599/2000, 3839/1600, 3, -(1/10), -(1/8), 0, false⟩ := by
    unfold phaseZ
    norm_num [HALF, PLAYER_H]
  have hmin : min (1/200 : ℚ) SUB_DT = 1/200 := by
    norm_num [SUB_DT, min_def]
  have hloop : subLoop [((1, 2, 3), BlockType.stone)] 8 (1/200)
      ⟨9/5, 12/5, 3, -(1/10), -(1/8), 0, false⟩
      = ⟨3599/2000, 3839/1600, 3, -(1/10), -(1/8), 0, false⟩ := by
    rw [show (8 : ℕ) = 7 + 1 from rfl,
      subLoop_step _ 7 _ _ (by norm_num), hmin]
    rw [show (1/200 : ℚ) - 1/200 = 0 by norm_num]
    unfold subStep
    rw [hY, hX, hZ]
    rw [show (7 : ℕ) = 6 + 1 from rfl, subLoop_done _ 6 _ _ (by norm_num)]
  have hmin10 : min (1/200 : ℚ) (1/10) = 1/200 := by
    norm_num [min_def]
  have hpre : ({ applyGravity (min (1/200 : ℚ) (1/10))
        (applyJump false ⟨9/5, 12/5, 3, 0, 0, 0, false⟩) with
        vx := -(1/10), vz := 0 } : FState)
      = ⟨9/5, 12/5, 3, -(1/10), -(1/8), 0, false⟩ := by
    norm_num [applyJump, applyGravity, min_def, JUMP_VEL, GRAVITY]
  have hframe : frame [((1, 2, 3), BlockType.stone)] false (-(1/10)) 0 (1/200)
      ⟨9/5, 12/5, 3, 0, 0, 0, false⟩
      = ⟨3599/2000, 3839/1600, 3, -(1/10), -(1/8), 0, false⟩ := by
    unfold frame
    rw [hpre, hmin10, hloop]
    unfold respawnCheck
    rw [if_neg (by norm_num [RESPAWN_Y])]
  refine ⟨?_, rfl, ?_⟩
  · intro e he
    simp only [List.mem_singleton] at he
    subst he
    norm_num [cubeOverlap, aabb, HALF, PLAYER_H]
  · rw [hframe]
    norm_num [cubeOverlap, aabb, HALF, PLAYER_H]

/-! ## Terrain generator lemmas and C7 -/

theorem getBlock_colRange (x z : ℤ) (tf : ℤ → BlockType) (n : ℕ) :
    ∀ (a : ℤ) (bs : Blocks) (q1 q2 q3 : ℤ),
    getBlock ((intRangeAux a n).foldl (fun acc y => setBlock acc (x, y, z) (tf y)) bs)
        (q1, q2, q3)
      = if q1 = x ∧ q3 = z ∧ a ≤ q2 ∧ q2 < a + n then some (tf q2)
        else getBlock bs (q1, q2, q3) := by
  induction n with
  | zero =>
    intro a bs q1 q2 q3
    simp only [intRangeAux, List.foldl_nil]
    rw [if_neg]
    rintro ⟨_, _, h1, h2⟩
    omega
  | succ k ih =>
    intro a bs q1 q2 q3
    simp only [intRangeAux, List.foldl_cons]
    rw [ih (a + 1), getBlock_setBlock]
    by_cases h1 : q1 = x ∧ q3 = z ∧ a + 1 ≤ q2 ∧ q2 < (a + 1) + k
    · rw [if_pos h1, if_pos ⟨h1.1, h1.2.1, by omega, by omega⟩]
    · rw [if_neg h1]
      by_cases h2 : ((x, a, z) : Pos3) = (q1, q2, q3)
      · rw [if_pos h2]
        simp only [Prod.mk.injEq] at h2
        obtain ⟨e1, e2, e3⟩ := h2
        rw [if_pos ⟨e1.symm, e3.symm, by omega, by omega⟩, e2]
      · rw [if_neg h2, if_neg]
        rintro ⟨g1, g3, g4, g5⟩
        have h1b : ¬(a + 1 ≤ q2 ∧ q2 < (a + 1) + k) :=
          fun hh => h1 ⟨g1, g3, hh.1, hh.2⟩
        apply h2
        simp only [Prod.mk.injEq]
        exact ⟨g1.symm, by omega, g3.symm⟩

theorem getBlock_colFill (h : ℤ → ℤ → ℤ) (x z : ℤ) (bs : Blocks) (q1 q2 q3 : ℤ) :
    getBlock (colFill h x z bs) (q1, q2, q3)
      = if q1 = x ∧ q3 = z ∧ -3 ≤ q2 ∧ q2 ≤ h x z then some (layerType (h x z) q2)
        else getBlock bs (q1, q2, q3) := by
  unfold colFill intRange
  rw [getBlock_colRange]
  refine if_congr ?_ rfl rfl
  omega

theorem getBlock_planeRange (h : ℤ → ℤ → ℤ) (x : ℤ) (n : ℕ) :
    ∀ (a : ℤ) (bs : Blocks) (q1 q2 q3 : ℤ),
    getBlock ((intRangeAux a n).foldl (fun acc z => colFill h x z acc) bs) (q1, q2, q3)
      = if q1 = x ∧ a ≤ q3 ∧ q3 < a + n ∧ -3 ≤ q2 ∧ q2 ≤ h x q3 then
          some (layerType (h x q3) q2)
        else getBlock bs (q1, q2, q3) := by
  induction n with
  | zero =>
    intro a bs q1 q2 q3
    simp only [intRangeAux, List.foldl_nil]
    rw [if_neg]
    rintro ⟨_, h1, h2, _⟩
    omega
  | succ k ih =>
    intro a bs q1 q2 q3
    simp only [intRangeAux, List.foldl_cons]
    rw [ih (a + 1), getBlock_colFill]
    by_cases hin : q1 = x ∧ a + 1 ≤ q3 ∧ q3 < (a + 1) + k ∧ -3 ≤ q2 ∧ q2 ≤ h x q3
    · rw [if_pos hin, if_pos ⟨hin.1, by omega, by omega, hin.2.2.2⟩]
    · rw [if_neg hin]
      by_cases hcol : q1 = x ∧ q3 = a ∧ -3 ≤ q2 ∧ q2 ≤ h x a
      · rw [if_pos hcol]
        obtain ⟨e1, e2, e3, e4⟩ := hcol
        rw [if_pos ⟨e1, by omega, by omega, e3, by rw [e2]; exact e4⟩, e2]
      · rw [if_neg hcol, if_neg]
        rintro ⟨g1, g2, g3, g4, g5⟩
        apply hcol
        by_cases hq3 : q3 = a
        · exact ⟨g1, hq3, g4, by rw [← hq3]; exact g5⟩
        · exact absurd ⟨g1, by omega, by omega, g4, g5⟩ hin

theorem getBlock_planeFill (h : ℤ → ℤ → ℤ) (x : ℤ) (bs : Blocks) (q1 q2 q3 : ℤ) :
    getBlock (planeFill h x bs) (q1, q2, q3)
      = if q1 = x ∧ -16 ≤ q3 ∧ q3 ≤ 16 ∧ -3 ≤ q2 ∧ q2 ≤ h x q3 then
          some (layerType (h x q3) q2)
        else getBlock bs (q1, q2, q3) := by
  unfold planeFill intRange
  rw [getBlock_planeRange]
  refine if_congr ?_ rfl rfl
  omega

theorem getBlock_groundRange (h : ℤ → ℤ → ℤ) (n : ℕ) :
    ∀ (a : ℤ) (bs : Blocks) (q1 q2 q3 : ℤ),
    getBlock ((intRangeAux a n).foldl (fun acc x => planeFill h x acc) bs) (q1, q2, q3)
      = if a ≤ q1 ∧ q1 < a + n ∧ -16 ≤ q3 ∧ q3 ≤ 16 ∧ -3 ≤ q2 ∧ q2 ≤ h q1 q3 then
          some (layerType (h q1 q3) q2)
        else getBlock bs (q1, q2, q3) := by
  induction n with
  | zero =>
    intro a bs q1 q2 q3
    simp only [intRangeAux, List.foldl_nil]
    rw [if_neg]
    rintro ⟨h1, h2, _⟩
    omega
  | succ k ih =>
    intro a bs q1 q2 q3
    simp only [intRangeAux, List.foldl_cons]
    rw [ih (a + 1), getBlock_planeFill]
    by_cases hin : a + 1 ≤ q1 ∧ q1 < (a + 1) + k ∧ -16 ≤ q3 ∧ q3 ≤ 16 ∧ -3 ≤ q2 ∧
        q2 ≤ h q1 q3
    · rw [if_pos hin, if_pos ⟨by omega, by omega, hin.2.2.1, hin.2.2.2.1, hin.2.2.2.2.1,
        hin.2.2.2.2.2⟩]
    · rw [if_neg hin]
      by_cases hcol : q1 = a ∧ -16 ≤ q3 ∧ q3 ≤ 16 ∧ -3 ≤ q2 ∧ q2 ≤ h a q3
      · rw [if_pos hcol]
        obtain ⟨e1, e2, e3, e4, e5⟩ := hcol
        rw [if_pos ⟨by omega, by omega, e2, e3, e4, by rw [e1]; exact e5⟩, e1]
      · rw [if_neg hcol, if_neg]
        rintro ⟨g1, g2, g3, g4, g5, g6⟩
        apply hcol
        by_cases hq1 : q1 = a
        · exact ⟨hq1, g3, g4, g5, by rw [← hq1]; exact g6⟩
        · exact absurd ⟨by omega, by omega, g3, g4, g5, g6⟩ hin

theorem getBlock_groundFill (h : ℤ → ℤ → ℤ) (q1 q2 q3 : ℤ) :
    getBlock (groundFill h) (q1, q2, q3)
      = if -16 ≤ q1 ∧ q1 ≤ 16 ∧ -16 ≤ q3 ∧ q3 ≤ 16 ∧ -3 ≤ q2 ∧ q2 ≤ h q1 q3 then
          some (layerType (h q1 q3) q2)
        else none := by
  unfold groundFill intRange
  rw [getBlock_groundRange]
  refine if_congr ?_ rfl rfl
  omega

theorem occupied_groundFill (h : ℤ → ℤ → ℤ) (tx y tz : ℤ) :
    occupied (groundFill h) (tx, y, tz)
      = decide (-16 ≤ tx ∧ tx ≤ 16 ∧ -16 ≤ tz ∧ tz ≤ 16 ∧ -3 ≤ y ∧ y ≤ h tx tz) := by
  unfold occupied
  rw [getBlock_groundFill]
  by_cases hc : -16 ≤ tx ∧ tx ≤ 16 ∧ -16 ≤ tz ∧ tz ≤ 16 ∧ -3 ≤ y ∧ y ≤ h tx tz
  · rw [if_pos hc]
    simp [hc]
  · rw [if_neg hc]
    simp [hc]

theorem find?_desc_some (p : ℤ → Bool) (n : ℕ) :
    ∀ (a g : ℤ), a ≤ g → g < a + n →
      (∀ y : ℤ, a ≤ y → y < a + n → (p y = true ↔ y ≤ g)) →
      ((intRangeAux a n).reverse).find? p = some g := by
  induction n with
  | zero =>
    intro a g h1 h2 _
    exact absurd h2 (by omega)
  | succ k ih =>
    intro a g h1 h2 hp
    simp only [intRangeAux, List.reverse_cons]
    rw [List.find?_append]
    by_cases hg : a + 1 ≤ g
    · rw [ih (a + 1) g hg (by omega) (fun y hy1 hy2 => hp y (by omega) (by omega))]
      rfl
    · have hga : g = a := by omega
      have hnone : (intRangeAux (a + 1) k).reverse.find? p = none := by
        rw [List.find?_eq_none]
        intro y hy
        rw [List.mem_reverse, mem_intRangeAux] at hy
        intro hpy
        have := (hp y (by omega) (by omega)).mp hpy
        omega
      rw [hnone]
      have hpa : p a = true := (hp a (by omega) (by omega)).mpr (by omega)
      simp [List.find?_cons, hpa, hga]

theorem find?_desc_none (p : ℤ → Bool) (n : ℕ) (a : ℤ)
    (hp : ∀ y : ℤ, a ≤ y → y < a + n → p y = false) :
    ((intRangeAux a n).reverse).find? p = none := by
  rw [List.find?_eq_none]
  intro y hy
  rw [List.mem_reverse, mem_intRangeAux] at hy
  intro hpy
  rw [hp y hy.1 hy.2] at hpy
  exact Bool.false_ne_true hpy

theorem findGround_groundFill_filled (h : ℤ → ℤ → ℤ) (tx tz : ℤ)
    (hx1 : -16 ≤ tx) (hx2 : tx ≤ 16) (hz1 : -16 ≤ tz) (hz2 : tz ≤ 16)
    (hh1 : -3 ≤ h tx tz) (hh2 : h tx tz ≤ 10) :
    findGround (groundFill h) tx tz = h tx tz := by
  unfold findGround intRange
  rw [show ((10 : ℤ) + 1 - (-3)).toNat = 14 from rfl]
  rw [find?_desc_some _ 14 (-3) (h tx tz) (by omega) (by omega) ?_]
  · rfl
  · intro y hy1 hy2
    rw [occupied_groundFill]
    simp only [decide_eq_true_eq]
    constructor
    · rintro ⟨_, _, _, _, _, h6⟩
      exact h6
    · intro hy
      exact ⟨hx1, hx2, hz1, hz2, by omega, hy⟩

theorem findGround_groundFill_empty (h : ℤ → ℤ → ℤ) (tx tz : ℤ)
    (hh : h tx tz < -3) :
    findGround (groundFill h) tx tz = 10 := by
  unfold findGround intRange
  rw [show ((10 : ℤ) + 1 - (-3)).toNat = 14 from rfl]
  rw [find?_desc_none _ 14 (-3) ?_]
  · rfl
  · intro y hy1 hy2
    rw [occupied_groundFill]
    simp only [decide_eq_false_iff_not]
    rintro ⟨_, _, _, _, _, h6⟩
    omega

theorem getBlock_plantTree (bs : Blocks) (tx tz : ℤ) (q1 q2 q3 : ℤ) :
    getBlock (plantTree bs tx tz) (q1, q2, q3)
      = if q1 = tx ∧ q3 = tz ∧ findGround bs tx tz + 1 ≤ q2 ∧
            q2 ≤ findGround bs tx tz + 4
        then some BlockType.wood
        else getBlock bs (q1, q2, q3) := by
  unfold plantTree
  rw [show intRange 1 4 = [1, 2, 3, 4] from rfl]
  simp only [List.foldl_cons, List.foldl_nil]
  rw [getBlock_setBlock, getBlock_setBlock, getBlock_setBlock, getBlock_setBlock]
  simp only [Prod.mk.injEq]
  split_ifs <;> first | rfl | omega

theorem find?_congr_aux {α : Type} (l : List α) (p1 p2 : α → Bool)
    (h : ∀ x ∈ l, p1 x = p2 x) : l.find? p1 = l.find? p2 := by
  induction l with
  | nil => rfl
  | cons a r ih =>
    rw [List.find?_cons, List.find?_cons, h a (by simp)]
    cases hp : p2 a
    · simp only []
      exact ih (fun x hx => h x (by simp [hx]))
    · rfl

theorem findGround_congr (bs1 bs2 : Blocks) (tx tz : ℤ)
    (hocc : ∀ y : ℤ, occupied bs1 (tx, y, tz) = occupied bs2 (tx, y, tz)) :
    findGround bs1 tx tz = findGround bs2 tx tz := by
  unfold findGround
  rw [find?_congr_aux _ _ _ (fun y _ => hocc y)]

theorem occupied_plantTree_other (bs : Blocks) (tx tz : ℤ) (q1 q2 q3 : ℤ)
    (hq : ¬(q1 = tx ∧ q3 = tz)) :
    occupied (plantTree bs tx tz) (q1, q2, q3) = occupied bs (q1, q2, q3) := by
  unfold occupied
  rw [getBlock_plantTree, if_neg]
  rintro ⟨e1, e3, _⟩
  exact hq ⟨e1, e3⟩

/-- C7: with the height function h of the source (abstracted because it is
a floored sum of floating-point sinusoids; the hypothesis h x z ≤ 10 holds
for it with room to spare, its true bound being 5), the generator fills,
for every column of the centered footprint -16 ≤ x, z ≤ 16, every y from
the floor -3 up to h x z, the topmost cell grass, the two below dirt and
the rest stone (layerType); and every populated cell lies either in such a
filled column slice or in one of the five tree columns. -/
theorem C7_terrain_layering (h : ℤ → ℤ → ℤ) (hb : ∀ x z : ℤ, h x z ≤ 10) :
    (∀ x z y : ℤ, -16 ≤ x → x ≤ 16 → -16 ≤ z → z ≤ 16 → -3 ≤ y → y ≤ h x z →
      getBlock (generateTerrain h) (x, y, z)
        = some (if y = h x z then BlockType.grass
            else if h x z - 2 ≤ y then BlockType.dirt else BlockType.stone)) ∧
    (∀ x y z : ℤ, getBlock (generateTerrain h) (x, y, z) ≠ none →
      (-16 ≤ x ∧ x ≤ 16 ∧ -16 ≤ z ∧ z ≤ 16 ∧ -3 ≤ y ∧ y ≤ h x z) ∨
        (x, z) ∈ treeCols) := by
  have hgen : generateTerrain h
      = plantTree (plantTree (plantTree (plantTree (plantTree (groundFill h) 3 4)
          (-5) (-7)) 10 (-3)) (-8) 12) 6 (-10) := rfl
  have hg2 : findGround (plantTree (groundFill h) 3 4) (-5) (-7)
      = findGround (groundFill h) (-5) (-7) :=
    findGround_congr _ _ _ _ (fun y =>
      occupied_plantTree_other _ _ _ _ _ _ (by decide))
  have hg3 : findGround (plantTree (plantTree (groundFill h) 3 4) (-5) (-7)) 10 (-3)
      = findGround (groundFill h) 10 (-3) :=
    findGround_congr _ _ _ _ (fun y => by
      rw [occupied_plantTree_other _ _ _ _ _ _ (by decide),
        occupied_plantTree_other _ _ _ _ _ _ (by decide)])
  have hg4 : findGround
        (plantTree (plantTree (plantTree (groundFill h) 3 4) (-5) (-7)) 10 (-3)) (-8) 12
      = findGround (groundFill h) (-8) 12 :=
    findGround_congr _ _ _ _ (fun y => by
      rw [occupied_plantTree_other _ _ _ _ _ _ (by decide),
        occupied_plantTree_other _ _ _ _ _ _ (by decide),
        occupied_plantTree_other _ _ _ _ _ _ (by decide)])
  have hg5 : findGround
        (plantTree (plantTree (plantTree (plantTree (groundFill h) 3 4) (-5) (-7))
          10 (-3)) (-8) 12) 6 (-10)
      = findGround (groundFill h) 6 (-10) :=
    findGround_congr _ _ _ _ (fun y => by
      rw [occupied_plantTree_other _ _ _ _ _ _ (by decide),
        occupied_plantTree_other _ _ _ _ _ _ (by decide),
        occupied_plantTree_other _ _ _ _ _ _ (by decide),
        occupied_plantTree_other _ _ _ _ _ _ (by decide)])
  have hb1 : h 3 4 ≤ findGround (groundFill h) 3 4 := by
    by_cases hc : -3 ≤ h 3 4
    · rw [findGround_groundFill_filled h 3 4 (by norm_num) (by norm_num) (by norm_num)
        (by norm_num) hc (hb 3 4)]
    · rw [findGround_groundFill_empty h 3 4 (by omega)]
      exact le_trans (hb 3 4) (by norm_num)
  have hb2 : h (-5) (-7) ≤ findGround (groundFill h) (-5) (-7) := by
    by_cases hc : -3 ≤ h (-5) (-7)
    · rw [findGround_groundFill_filled h (-5) (-7) (by norm_num) (by norm_num)
        (by norm_num) (by norm_num) hc (hb (-5) (-7))]
    · rw [findGround_groundFill_empty h (-5) (-7) (by omega)]
      exact le_trans (hb (-5) (-7)) (by norm_num)
  have hb3 : h 10 (-3) ≤ findGround (groundFill h) 10 (-3) := by
    by_cases hc : -3 ≤ h 10 (-3)
    · rw [findGround_groundFill_filled h 10 (-3) (by norm_num) (by norm_num)
        (by norm_num) (by norm_num) hc (hb 10 (-3))]
    · rw [findGround_groundFill_empty h 10 (-3) (by omega)]
      exact le_trans (hb 10 (-3)) (by norm_num)
  have hb4 : h (-8) 12 ≤ findGround (groundFill h) (-8) 12 := by
    by_cases hc : -3 ≤ h (-8) 12
    · rw [findGround_groundFill_filled h (-8) 12 (by norm_num) (by norm_num)
        (by norm_num) (by norm_num) hc (hb (-8) 12)]
    · rw [findGround_groundFill_empty h (-8) 12 (by omega)]
      exact le_trans (hb (-8) 12) (by norm_num)
  have hb5 : h 6 (-10) ≤ findGround (groundFill h) 6 (-10) := by
    by_cases hc : -3 ≤ h 6 (-10)
    · rw [findGround_groundFill_filled h 6 (-10) (by norm_num) (by norm_num)
        (by norm_num) (by norm_num) hc (hb 6 (-10))]
    · rw [findGround_groundFill_empty h 6 (-10) (by omega)]
      exact le_trans (hb 6 (-10)) (by norm_num)
  constructor
  · intro x z y hx1 hx2 hz1 hz2 hy1 hy2
    rw [hgen, getBlock_plantTree, getBlock_plantTree, getBlock_plantTree,
      getBlock_plantTree, getBlock_plantTree, getBlock_groundFill, hg5, hg4, hg3, hg2]
    rw [if_neg (by
        rintro ⟨e1, e3, e4, _⟩
        subst e1
        subst e3
        omega),
      if_neg (by
        rintro ⟨e1, e3, e4, _⟩
        subst e1
        subst e3
        omega),
      if_neg (by
        rintro ⟨e1, e3, e4, _⟩
        subst e1
        subst e3
        omega),
      if_neg (by
        rintro ⟨e1, e3, e4, _⟩
        subst e1
        subst e3
        omega),
      if_neg (by
        rintro ⟨e1, e3, e4, _⟩
        subst e1
        subst e3
        omega),
      if_pos ⟨hx1, hx2, hz1, hz2, hy1, hy2⟩]
    rfl
  · intro x y z hne
    rw [hgen, getBlock_plantTree, getBlock_plantTree, getBlock_plantTree,
      getBlock_plantTree, getBlock_plantTree, getBlock_groundFill] at hne
    split_ifs at hne with h1 h2 h3 h4 h5 h6
    · refine Or.inr ?_
      obtain ⟨e1, e3, _⟩ := h1
      subst e1
      subst e3
      decide
    · refine Or.inr ?_
      obtain ⟨e1, e3, _⟩ := h2
      subst e1
      subst e3
      decide
    · refine Or.inr ?_
      obtain ⟨e1, e3, _⟩ := h3
      subst e1
      subst e3
      decide
    · refine Or.inr ?_
      obtain ⟨e1, e3, _⟩ := h4
      subst e1
      subst e3
      decide
    · refine Or.inr ?_
      obtain ⟨e1, e3, _⟩ := h5
      subst e1
      subst e3
      decide
    · exact Or.inl h6
    · exact absurd rfl hne

/-- C7 witness: the constant-zero height function satisfies the bound, and
the generated terrain has grass in the top cell of the spawn column. -/
theorem C7_witness :
    (∀ x z : ℤ, (fun _ _ => (0 : ℤ)) x z ≤ 10) ∧
    getBlock (generateTerrain (fun _ _ => (0 : ℤ))) (0, 0, 0) = some BlockType.grass := by
  have hb : ∀ x z : ℤ, (fun _ _ => (0 : ℤ)) x z ≤ 10 := fun _ _ => by norm_num
  refine ⟨hb, ?_⟩
  have := (C7_terrain_layering (fun _ _ => (0 : ℤ)) hb).1 0 0 0 (by norm_num) (by norm_num)
    (by norm_num) (by norm_num) (by norm_num) (by norm_num)
  rw [this]
  norm_num

/-- C6 witness: a concrete query over a one-block store where the amended
equivalence yields a positive collides answer and the exact-test
implication holds. -/
theorem C6_witness :
    collides 0 0 0 1 2 2 [((1, 1, 1), BlockType.glass)] = true ∧
    cubeOverlap ⟨0, 0, 0, 1, 2, 2⟩ (1, 1, 1) := by
  have h := C6_amended_overlap_query 0 0 0 1 2 2 [((1, 1, 1), BlockType.glass)]
  constructor
  · rw [h.1]
    exact ⟨((1, 1, 1), BlockType.glass), by simp, by norm_num [epsOverlap]⟩
  · exact h.2 ((1, 1, 1), BlockType.glass) (by norm_num [epsOverlap])
